import Mathlib

/-!
Verification of the address-space compaction tool (`scripts/bintools/prelink_binary.py`).

The embedding models the packer exactly as the Python source computes it:
machine integers become `Int` (Python integers are unbounded and may go
negative before the `baseaddr < 0` check fires), the `while not found`
loop becomes a fuel-indexed recursion (`searchSlot`), and the per-library
copy/prelink side effects become the list of placements accumulated before
a failure (`PackOutcome.err` carries the libraries already relocated).

Fuel choice: the Python loop is unbounded.  Every restart jumps the cursor
to `m.base - size` for some existing mapping `m`, so restart targets lie in
a set of at most `existing.length` values, and (for nonnegative mapping
sizes) the cursor never increases; a repeated cursor value repeats forever.
Hence the Python loop, whenever it terminates, does so within
`existing.length + 1` iterations, and `timeout` faithfully models
divergence of the source loop.
-/

/-- A memory region as the source handles it: `(base address, size)`. -/
abbrev Region := Int × Int

/-- The overlap test of `get_overlap` (prelink_binary.py lines 70-72):
`(start >= m_start and start < m_end) or (end > m_start and end <= m_end)
or (start <= m_start and end >= m_end)` with `end = start + size`,
`m_end = m_start + m_size`. -/
def overlapCond (st sz ms msz : Int) : Bool :=
  (decide (st ≥ ms) && decide (st < ms + msz)) ||
  (decide (st + sz > ms) && decide (st + sz ≤ ms + msz)) ||
  (decide (st ≤ ms) && decide (st + sz ≥ ms + msz))

/-- The function `get_overlap(mapping, other_mappings)`: the *last* region
of `other_mappings` that overlaps `mapping` (the source scans
`other_mappings[::-1]` and returns the first hit), or `none`. -/
def getOverlap (mapping : Region) (others : List Region) : Option Region :=
  others.reverse.find? fun m => overlapCond mapping.1 mapping.2 m.1 m.2

/-- The alignment step of the slot-search loop (lines 153-154):
`if baseaddr % align: baseaddr -= baseaddr % align`.  Python's `%` with a
positive modulus returns a value in `[0, align)`, exactly as `Int.emod`
does; `p_align` is unsigned in ELF, so a negative modulus never arises. -/
def alignDown (c a : Int) : Int :=
  if c % a ≠ 0 then c - c % a else c

/-- Result of the slot-search loop: a slot was found, the Python code
raised `ZeroDivisionError` (`baseaddr % align` with `align = 0`), or the
loop did not finish within the given fuel (divergence of the source loop). -/
inductive SlotResult where
  | found : Int → SlotResult
  | zeroDiv : SlotResult
  | timeout : SlotResult
deriving DecidableEq, Repr

/-- The `while not found` loop of `prelink_libs` (lines 151-159): align the
cursor down (`baseaddr -= baseaddr % align` when the remainder is nonzero),
then query `get_overlap((baseaddr, size), existing_mappings)`; on a hit
`m`, restart from `m.base - size`. -/
def searchSlot (existing : List Region) (size align : Int) : Nat → Int → SlotResult
  | 0, _ => .timeout
  | fuel + 1, baseaddr =>
    if align = 0 then .zeroDiv
    else
      match getOverlap (alignDown baseaddr align, size) existing with
      | some m => searchSlot existing size align fuel (m.1 - size)
      | none => .found (alignDown baseaddr align)

/-- A per-library requirement as `prelink_libs` computes it from the load
segments: the `align` and `size` variables of lines 138-145. -/
structure Req where
  align : Int
  span : Int
deriving DecidableEq, Repr

/-- How a run of `prelink_libs` can fail: `ZeroDivisionError` from the
alignment step, divergence of the slot search, or the
`Invalid base address` exception of line 162, which names the offending
library (here its requirement) and the negative base. -/
inductive PackError where
  | zeroDiv : PackError
  | timeout : PackError
  | badBase : Req → Int → PackError
deriving DecidableEq, Repr

/-- Outcome of a run: `ok placed` with one `(requirement, base)` pair per
library in input order, or `err placed e` where `placed` holds the
libraries already copied and prelinked before the exception `e` was
raised (the source relocates each library immediately after placing it,
so placements made before a failure are not rolled back). -/
inductive PackOutcome where
  | ok : List (Req × Int) → PackOutcome
  | err : List (Req × Int) → PackError → PackOutcome
deriving DecidableEq, Repr

/-- The placement loop of `prelink_libs` (lines 134-170) over precomputed
requirements: `baseaddr -= size`; search a slot; fail if the found base is
negative; otherwise relocate the library there and continue with the
cursor at the found base. -/
def packLibs (existing : List Region) : Int → List Req → PackOutcome
  | _, [] => .ok []
  | baseaddr, r :: rest =>
    match searchSlot existing r.span r.align (existing.length + 1) (baseaddr - r.span) with
    | .zeroDiv => .err [] .zeroDiv
    | .timeout => .err [] .timeout
    | .found b =>
      if b < 0 then .err [] (.badBase r b)
      else
        match packLibs existing b rest with
        | .ok ps => .ok ((r, b) :: ps)
        | .err ps e => .err ((r, b) :: ps) e

/-- An ELF program header entry as the packer reads it: whether it is a
`PT_LOAD` segment, and its `p_vaddr`, `p_memsz`, `p_align`. -/
structure Seg where
  isLoad : Bool
  vaddr : Int
  memsz : Int
  palign : Int
deriving DecidableEq, Repr

/-- Lines 138-145 of `prelink_libs`: starting from `align, size = 0, 0`,
for every `PT_LOAD` segment in file order update
`if p_align > align: align = p_align` and `size = p_vaddr + p_memsz`
(note: `size` is overwritten by each load segment, not maximised). -/
def computeReq (segs : List Seg) : Int × Int :=
  segs.foldl
    (fun acc s =>
      if s.isLoad then
        ((if s.palign > acc.1 then s.palign else acc.1), s.vaddr + s.memsz)
      else acc)
    (0, 0)

/-- Modelled from the spec: the span the spec ascribes to a library, "the
highest `segment.address + segment.size` across all of its load
segments". -/
def specSpan (segs : List Seg) : Int :=
  segs.foldl (fun acc s => if s.isLoad then max acc (s.vaddr + s.memsz) else acc) 0

/-- Modelled from the spec: "the maximum alignment among its load
segments". -/
def specAlign (segs : List Seg) : Int :=
  segs.foldl (fun acc s => if s.isLoad then max acc s.palign else acc) 0

/-- The `p_vaddr + p_memsz` of the last `PT_LOAD` segment in file order
(`0` when there is none): what the source's `size` variable actually ends
up holding. -/
def lastLoadEnd (segs : List Seg) : Int :=
  segs.foldl (fun acc s => if s.isLoad then s.vaddr + s.memsz else acc) 0

/-- The whole of `prelink_libs`: per library, derive the requirement from
its load segments, then run the placement loop. -/
def prelinkLibs (existing : List Region) (baseaddr : Int) (libs : List (List Seg)) : PackOutcome :=
  packLibs existing baseaddr
    (libs.map fun segs => ⟨(computeReq segs).1, (computeReq segs).2⟩)

/-- One insertion into the Python `set` of `main` (modelled as an
insertion-ordered duplicate-free list). -/
def insertNew (acc : List String) (x : String) : List String :=
  if x ∈ acc then acc else acc ++ [x]

/-- Lines 189-191 of `main`: `libs = set(); libs.update(deps);
libs.add(interp)`. -/
def collectLibs (deps : List String) (interp : String) : List String :=
  insertNew (deps.foldl insertNew []) interp

/-! ### Basic facts about the overlap predicate and the alignment step -/

/-- Standard half-open interval intersection implies the source's overlap
disjunction, with no side conditions on the sizes. -/
lemma overlapCond_of_inter {st sz ms msz : Int} (h1 : st < ms + msz)
    (h2 : ms < st + sz) : overlapCond st sz ms msz = true := by
  simp only [overlapCond, Bool.or_eq_true, Bool.and_eq_true, decide_eq_true_eq]
  omega

/-- For positive sizes on both sides, the source's overlap disjunction is
exactly standard half-open interval intersection. -/
lemma overlapCond_iff {st sz ms msz : Int} (hsz : 0 < sz) (hmsz : 0 < msz) :
    overlapCond st sz ms msz = true ↔ (st < ms + msz ∧ ms < st + sz) := by
  simp only [overlapCond, Bool.or_eq_true, Bool.and_eq_true, decide_eq_true_eq]
  omega

/-- A restart jumps to `ms - sz`, which never exceeds the current cursor
when sizes are nonnegative. -/
lemma overlapCond_jump_le {st sz ms msz : Int} (hsz : 0 ≤ sz) (hmsz : 0 ≤ msz)
    (h : overlapCond st sz ms msz = true) : ms - sz ≤ st := by
  simp only [overlapCond, Bool.or_eq_true, Bool.and_eq_true, decide_eq_true_eq] at h
  omega

/-- With positive sizes on both sides, a restart strictly decreases the
cursor. -/
lemma overlapCond_jump_lt {st sz ms msz : Int} (hsz : 0 < sz) (hmsz : 0 < msz)
    (h : overlapCond st sz ms msz = true) : ms - sz < st := by
  simp only [overlapCond, Bool.or_eq_true, Bool.and_eq_true, decide_eq_true_eq] at h
  omega

lemma getOverlap_eq_none {mp : Region} {others : List Region}
    (h : getOverlap mp others = none) :
    ∀ m ∈ others, overlapCond mp.1 mp.2 m.1 m.2 = false := by
  intro m hm
  have := List.find?_eq_none.mp h m (List.mem_reverse.mpr hm)
  simpa using this

lemma getOverlap_eq_some {mp m : Region} {others : List Region}
    (h : getOverlap mp others = some m) :
    m ∈ others ∧ overlapCond mp.1 mp.2 m.1 m.2 = true := by
  unfold getOverlap at h
  refine ⟨List.mem_reverse.mp (List.mem_of_find?_eq_some h), ?_⟩
  simpa using List.find?_some h

/-- A region that `get_overlap` clears is disjoint (as a half-open
interval) from every listed mapping. -/
lemma getOverlap_none_disjoint {b sz : Int} {others : List Region}
    (h : getOverlap (b, sz) others = none) :
    ∀ m ∈ others, ¬ (b < m.1 + m.2 ∧ m.1 < b + sz) := by
  intro m hm hc
  have hfalse := getOverlap_eq_none h m hm
  have htrue := overlapCond_of_inter hc.1 hc.2
  simp [htrue] at hfalse

lemma alignDown_le (c : Int) {a : Int} (ha : a ≠ 0) : alignDown c a ≤ c := by
  unfold alignDown
  split
  · have := Int.emod_nonneg c ha
    omega
  · exact le_refl c

lemma alignDown_emod (c : Int) (a : Int) : alignDown c a % a = 0 := by
  unfold alignDown
  split
  · have h2 : c - c % a = a * (c / a) := by rw [Int.emod_def]; ring
    rw [h2, Int.mul_emod_right]
  · omega

/-! ### Facts about the slot-search loop -/

/-- A found slot was produced by the alignment step with a nonzero
alignment, hence it is a multiple of the alignment. -/
lemma searchSlot_found_align {existing : List Region} {sz a : Int} :
    ∀ (fuel : Nat) (c b : Int), searchSlot existing sz a fuel c = .found b →
      a ≠ 0 ∧ b % a = 0 := by
  intro fuel
  induction fuel with
  | zero => intro c b h; simp [searchSlot] at h
  | succ n ih =>
    intro c b h
    simp only [searchSlot] at h
    by_cases ha : a = 0
    · rw [if_pos ha] at h; cases h
    · rw [if_neg ha] at h
      cases hov : getOverlap (alignDown c a, sz) existing with
      | some m =>
        rw [hov] at h
        exact ih (m.1 - sz) b h
      | none =>
        rw [hov] at h
        cases h
        exact ⟨ha, alignDown_emod c a⟩

/-- With nonnegative mapping sizes and a nonnegative span, the cursor
never increases during the slot search: the found base lies at or below
the starting cursor. -/
lemma searchSlot_found_le {existing : List Region} {sz a : Int}
    (hm : ∀ m ∈ existing, 0 ≤ m.2) (hsz : 0 ≤ sz) :
    ∀ (fuel : Nat) (c b : Int), searchSlot existing sz a fuel c = .found b →
      b ≤ c := by
  intro fuel
  induction fuel with
  | zero => intro c b h; simp [searchSlot] at h
  | succ n ih =>
    intro c b h
    simp only [searchSlot] at h
    by_cases ha : a = 0
    · rw [if_pos ha] at h; cases h
    · rw [if_neg ha] at h
      cases hov : getOverlap (alignDown c a, sz) existing with
      | some m =>
        rw [hov] at h
        obtain ⟨hmem, hcond⟩ := getOverlap_eq_some hov
        have h1 : m.1 - sz ≤ alignDown c a :=
          overlapCond_jump_le hsz (hm m hmem) hcond
        have h2 : alignDown c a ≤ c := alignDown_le c ha
        have h3 := ih (m.1 - sz) b h
        omega
      | none =>
        rw [hov] at h
        cases h
        exact alignDown_le c ha

/-- A found slot clears the overlap check against every existing
mapping. -/
lemma searchSlot_found_noov {existing : List Region} {sz a : Int} :
    ∀ (fuel : Nat) (c b : Int), searchSlot existing sz a fuel c = .found b →
      getOverlap (b, sz) existing = none := by
  intro fuel
  induction fuel with
  | zero => intro c b h; simp [searchSlot] at h
  | succ n ih =>
    intro c b h
    simp only [searchSlot] at h
    by_cases ha : a = 0
    · rw [if_pos ha] at h; cases h
    · rw [if_neg ha] at h
      cases hov : getOverlap (alignDown c a, sz) existing with
      | some m =>
        rw [hov] at h
        exact ih (m.1 - sz) b h
      | none =>
        rw [hov] at h
        cases h
        exact hov

/-! ### Termination of the slot search for positive sizes -/

lemma length_filter_mono {α : Type} (l : List α) (p q : α → Bool)
    (himp : ∀ a ∈ l, p a = true → q a = true) :
    (l.filter p).length ≤ (l.filter q).length := by
  induction l with
  | nil => simp
  | cons a t ih =>
    have ht : ∀ x ∈ t, p x = true → q x = true :=
      fun x hx => himp x (List.mem_cons_of_mem a hx)
    cases hpa : p a with
    | true =>
      have hqa := himp a (List.mem_cons_self a t) hpa
      simp [List.filter_cons, hpa, hqa]
      exact ih ht
    | false =>
      cases hqa : q a with
      | true =>
        simp [List.filter_cons, hpa, hqa]
        exact Nat.le_succ_of_le (ih ht)
      | false =>
        simp [List.filter_cons, hpa, hqa]
        exact ih ht

lemma length_filter_lt {α : Type} (l : List α) (p q : α → Bool)
    (himp : ∀ a ∈ l, p a = true → q a = true) {m : α} (hm : m ∈ l)
    (hq : q m = true) (hp : p m = false) :
    (l.filter p).length < (l.filter q).length := by
  induction l with
  | nil => cases hm
  | cons a t ih =>
    have ht : ∀ x ∈ t, p x = true → q x = true :=
      fun x hx => himp x (List.mem_cons_of_mem a hx)
    rcases List.mem_cons.mp hm with rfl | hmt
    · simp [List.filter_cons, hp, hq]
      exact Nat.lt_succ_of_le (length_filter_mono t p q ht)
    · cases hpa : p a with
      | true =>
        have hqa := himp a (List.mem_cons_self a t) hpa
        simp [List.filter_cons, hpa, hqa]
        exact ih ht hmt
      | false =>
        cases hqa : q a with
        | true =>
          simp [List.filter_cons, hpa, hqa]
          exact Nat.lt_succ_of_lt (ih ht hmt)
        | false =>
          simp [List.filter_cons, hpa, hqa]
          exact ih ht hmt

/-- When every existing mapping has positive size and the span is
positive, each restart strictly decreases the cursor, and the restart
target is `m.base - span` for one of the finitely many mappings `m`; so
the slot search finds a slot once the fuel exceeds the number of mappings
whose restart target lies below the cursor. -/
lemma searchSlot_terminates {existing : List Region} {sz a : Int}
    (hm : ∀ m ∈ existing, 0 < m.2) (hsz : 0 < sz) (ha : a ≠ 0) :
    ∀ (fuel : Nat) (c : Int),
      (existing.filter fun m => decide (m.1 - sz < c)).length < fuel →
      ∃ b, searchSlot existing sz a fuel c = .found b := by
  intro fuel
  induction fuel with
  | zero => intro c hc; omega
  | succ n ih =>
    intro c hc
    simp only [searchSlot]
    rw [if_neg ha]
    cases hov : getOverlap (alignDown c a, sz) existing with
    | none => exact ⟨alignDown c a, rfl⟩
    | some m =>
      obtain ⟨hmem, hcond⟩ := getOverlap_eq_some hov
      have hjlt : m.1 - sz < alignDown c a :=
        overlapCond_jump_lt hsz (hm m hmem) hcond
      have hble : alignDown c a ≤ c := alignDown_le c ha
      have hdec : (existing.filter fun x => decide (x.1 - sz < m.1 - sz)).length <
          (existing.filter fun x => decide (x.1 - sz < c)).length := by
        refine length_filter_lt existing _ _ ?_ hmem ?_ ?_
        · intro x _ hx
          simp only [decide_eq_true_eq] at hx ⊢
          omega
        · simp only [decide_eq_true_eq]
          omega
        · simp
      obtain ⟨b, hb⟩ := ih (m.1 - sz) (by omega)
      exact ⟨b, hb⟩

/-! ### Invariants of a successful placement run -/

/-- Master invariant of `packLibs` on success: placements pair up with the
requirements in input order; every placed base sits (with its whole span)
at or below the incoming cursor, is nonnegative and clears the overlap
check; and each later placement sits (with its whole span) at or below
every earlier base. -/
lemma packLibs_ok_props {existing : List Region} (hm : ∀ m ∈ existing, 0 ≤ m.2) :
    ∀ (reqs : List Req) (c : Int) (placed : List (Req × Int)),
      (∀ r ∈ reqs, 0 ≤ r.span) →
      packLibs existing c reqs = .ok placed →
      placed.map Prod.fst = reqs ∧
      (∀ p ∈ placed, p.2 + p.1.span ≤ c ∧ 0 ≤ p.2 ∧
        getOverlap (p.2, p.1.span) existing = none) ∧
      List.Pairwise (fun p q : Req × Int => q.2 + q.1.span ≤ p.2) placed := by
  intro reqs
  induction reqs with
  | nil =>
    intro c placed _ h
    simp only [packLibs] at h
    injection h with h'
    subst h'
    simp
  | cons r rest ih =>
    intro c placed hr h
    simp only [packLibs] at h
    cases hs : searchSlot existing r.span r.align (existing.length + 1) (c - r.span) with
    | zeroDiv => rw [hs] at h; cases h
    | timeout => rw [hs] at h; cases h
    | found b =>
      rw [hs] at h
      dsimp only at h
      by_cases hb : b < 0
      · rw [if_pos hb] at h; cases h
      · rw [if_neg hb] at h
        cases hrec : packLibs existing b rest with
        | err ps e => rw [hrec] at h; cases h
        | ok ps =>
          rw [hrec] at h
          injection h with h'
          subst h'
          have hspan : 0 ≤ r.span := hr r (List.mem_cons_self r rest)
          have hrt : ∀ x ∈ rest, 0 ≤ x.span :=
            fun x hx => hr x (List.mem_cons_of_mem r hx)
          obtain ⟨ihmap, ihall, ihpw⟩ := ih b ps hrt hrec
          have hble : b ≤ c - r.span :=
            searchSlot_found_le hm hspan _ (c - r.span) b hs
          have hnoov := searchSlot_found_noov _ (c - r.span) b hs
          refine ⟨by simp [ihmap], ?_, ?_⟩
          · intro p hp
            rcases List.mem_cons.mp hp with rfl | hpt
            · refine ⟨?_, ?_, hnoov⟩
              · show b + r.span ≤ c
                omega
              · show (0 : Int) ≤ b
                omega
            · obtain ⟨h1, h2, h3⟩ := ihall p hpt
              exact ⟨by omega, h2, h3⟩
          · refine List.Pairwise.cons ?_ ihpw
            intro q hq
            have h1 := (ihall q hq).1
            show q.2 + q.1.span ≤ b
            omega

/-- On success, every placed base is a multiple of its requirement's
alignment (no side conditions: a success already implies every alignment
that was used was nonzero). -/
lemma packLibs_ok_aligned {existing : List Region} :
    ∀ (reqs : List Req) (c : Int) (placed : List (Req × Int)),
      packLibs existing c reqs = .ok placed →
      ∀ p ∈ placed, p.2 % p.1.align = 0 := by
  intro reqs
  induction reqs with
  | nil =>
    intro c placed h
    simp only [packLibs] at h
    injection h with h'
    subst h'
    simp
  | cons r rest ih =>
    intro c placed h
    simp only [packLibs] at h
    cases hs : searchSlot existing r.span r.align (existing.length + 1) (c - r.span) with
    | zeroDiv => rw [hs] at h; cases h
    | timeout => rw [hs] at h; cases h
    | found b =>
      rw [hs] at h
      dsimp only at h
      by_cases hb : b < 0
      · rw [if_pos hb] at h; cases h
      · rw [if_neg hb] at h
        cases hrec : packLibs existing b rest with
        | err ps e => rw [hrec] at h; cases h
        | ok ps =>
          rw [hrec] at h
          injection h with h'
          subst h'
          intro p hp
          rcases List.mem_cons.mp hp with rfl | hpt
          · exact (searchSlot_found_align _ (c - r.span) b hs).2
          · exact ih b ps hrec p hpt

/-! ### Decomposing the per-library requirement computation -/

/-- The paired fold of `computeReq` splits into the two independent folds:
the running maximum of the load alignments, and the running overwrite of
the load end address. -/
lemma computeReq_foldl (segs : List Seg) : ∀ a0 s0 : Int,
    segs.foldl
      (fun acc s =>
        if s.isLoad then
          ((if s.palign > acc.1 then s.palign else acc.1), s.vaddr + s.memsz)
        else acc)
      (a0, s0)
    = (segs.foldl (fun acc s => if s.isLoad then max acc s.palign else acc) a0,
       segs.foldl (fun acc s => if s.isLoad then s.vaddr + s.memsz else acc) s0) := by
  induction segs with
  | nil => intro a0 s0; rfl
  | cons s t ih =>
    intro a0 s0
    cases hl : s.isLoad with
    | false =>
      simp only [List.foldl_cons, hl, Bool.false_eq_true, if_false]
      exact ih a0 s0
    | true =>
      simp only [List.foldl_cons, hl, if_true]
      rw [ih]
      have hmax : (if s.palign > a0 then s.palign else a0) = max a0 s.palign := by
        rw [max_def]
        split <;> split <;> omega
      rw [hmax]

/-! ### The deduplicating library collection of `main` -/

lemma insertNew_nodup {acc : List String} (x : String) (h : acc.Nodup) :
    (insertNew acc x).Nodup := by
  unfold insertNew
  split
  · exact h
  · next hx => simp [List.nodup_append, h, hx]

lemma insertNew_mem_self (acc : List String) (x : String) :
    x ∈ insertNew acc x := by
  unfold insertNew
  split
  · assumption
  · simp

lemma insertNew_mem_mono {acc : List String} (x : String) {y : String}
    (h : y ∈ acc) : y ∈ insertNew acc x := by
  unfold insertNew
  split
  · exact h
  · exact List.mem_append_left _ h

lemma foldl_insertNew_nodup (deps : List String) :
    ∀ acc : List String, acc.Nodup → (deps.foldl insertNew acc).Nodup := by
  induction deps with
  | nil => intro acc h; exact h
  | cons d t ih =>
    intro acc h
    exact ih (insertNew acc d) (insertNew_nodup d h)

lemma foldl_insertNew_mem (deps : List String) :
    ∀ (acc : List String) (d : String), d ∈ acc ∨ d ∈ deps →
      d ∈ deps.foldl insertNew acc := by
  induction deps with
  | nil =>
    intro acc d h
    rcases h with h | h
    · exact h
    · cases h
  | cons a t ih =>
    intro acc d h
    simp only [List.foldl_cons]
    rcases h with h | h
    · exact ih (insertNew acc a) d (Or.inl (insertNew_mem_mono a h))
    · rcases List.mem_cons.mp h with rfl | ht
      · exact ih (insertNew acc d) d (Or.inl (insertNew_mem_self acc d))
      · exact ih (insertNew acc a) d (Or.inr ht)

/-! ### Claim theorems -/

/-- C1: for every successful run of the packer over an existing-mapping
list (sizes nonnegative, as they are unsigned in the source's data model),
a start address, and requirements with positive spans and alignments at
least 1, the half-open interval of every placed library is disjoint from
every existing mapping's half-open interval and from every other placed
library's interval. -/
theorem c1_no_overlap (existing : List Region) (start : Int) (reqs : List Req)
    (placed : List (Req × Int))
    (hm : ∀ m ∈ existing, 0 ≤ m.2)
    (hr : ∀ r ∈ reqs, 0 < r.span ∧ 1 ≤ r.align)
    (h : packLibs existing start reqs = .ok placed) :
    (∀ p ∈ placed, ∀ m ∈ existing, ¬ (p.2 < m.1 + m.2 ∧ m.1 < p.2 + p.1.span)) ∧
    List.Pairwise
      (fun p q : Req × Int => ¬ (p.2 < q.2 + q.1.span ∧ q.2 < p.2 + p.1.span))
      placed := by
  obtain ⟨-, hall, hpw⟩ :=
    packLibs_ok_props hm reqs start placed (fun r hrr => le_of_lt (hr r hrr).1) h
  constructor
  · intro p hp m hmem
    exact getOverlap_none_disjoint (hall p hp).2.2 m hmem
  · refine hpw.imp ?_
    intro p q hle hcontra
    obtain ⟨hc1, hc2⟩ := hcontra
    omega

/-- Witness for C1 at spec scenario 4: two requirements, empty existing
set, start `0x20000`; the two placed regions do not intersect. -/
theorem c1_witness :
    ((0 : Int) < 0x2000 ∧ (1 : Int) ≤ 0x1000) ∧
    ¬ ((0x1E000 : Int) < 0x1D000 + 0x1000 ∧ (0x1D000 : Int) < 0x1E000 + 0x2000) := by
  refine ⟨by decide, ?_⟩
  have h := (c1_no_overlap [] 0x20000 [⟨0x1000, 0x2000⟩, ⟨0x1000, 0x1000⟩]
      [(⟨0x1000, 0x2000⟩, 0x1E000), (⟨0x1000, 0x1000⟩, 0x1D000)]
      (by decide) (by decide) (by decide)).2
  have h2 := (List.pairwise_cons.mp h).1 (⟨0x1000, 0x1000⟩, 0x1D000) (by simp)
  exact h2

/-- C2: every library placed by a successful run has a base address that
is an exact multiple of its requirement's alignment (a success already
forces every alignment used to be nonzero). -/
theorem c2_alignment (existing : List Region) (start : Int) (reqs : List Req)
    (placed : List (Req × Int))
    (h : packLibs existing start reqs = .ok placed) :
    ∀ p ∈ placed, p.2 % p.1.align = 0 :=
  packLibs_ok_aligned reqs start placed h

/-- Witness for C2 at spec scenario 3: the base `0xD800` found after one
collision skip is a multiple of the alignment `0x100`. -/
theorem c2_witness :
    packLibs [(0xE800, 0x1000)] 0x10000 [⟨0x100, 0x1000⟩]
        = .ok [(⟨0x100, 0x1000⟩, 0xD800)] ∧
    (0xD800 : Int) % 0x100 = 0 := by
  refine ⟨by decide, ?_⟩
  have h := c2_alignment [(0xE800, 0x1000)] 0x10000 [⟨0x100, 0x1000⟩]
      [(⟨0x100, 0x1000⟩, 0xD800)] (by decide) (⟨0x100, 0x1000⟩, 0xD800) (by simp)
  exact h

/-- C8 (amended): on success (spans nonnegative and existing-mapping
sizes nonnegative, per the unsigned data model), the finalized bases read
in input order drop by at least each requirement's span — consecutively
via `Chain'`, and from the start address down to every base via the
second conjunct.  The decrease is therefore strict whenever the later
requirement's span is positive, but a zero-span requirement is placed at
the previous base itself, so the sequence is non-increasing rather than
strictly decreasing in general. -/
theorem c8_monotonic (existing : List Region) (start : Int) (reqs : List Req)
    (placed : List (Req × Int))
    (hm : ∀ m ∈ existing, 0 ≤ m.2)
    (hr : ∀ r ∈ reqs, 0 ≤ r.span)
    (h : packLibs existing start reqs = .ok placed) :
    List.Chain' (fun p q : Req × Int => q.2 + q.1.span ≤ p.2) placed ∧
    ∀ p ∈ placed, p.2 + p.1.span ≤ start := by
  obtain ⟨-, hall, hpw⟩ := packLibs_ok_props hm reqs start placed hr h
  exact ⟨hpw.chain', fun p hp => (hall p hp).1⟩

/-- Witness for C8: a run with a zero-span second requirement succeeds
with bases `0xF000, 0xF000`, and the amended bound (drop by at least each
span) holds at it. -/
theorem c8_witness :
    packLibs [] 0x10000 [⟨1, 0x1000⟩, ⟨1, 0⟩]
        = .ok [(⟨1, 0x1000⟩, 0xF000), (⟨1, 0⟩, 0xF000)] ∧
    List.Chain' (fun p q : Req × Int => q.2 + q.1.span ≤ p.2)
      [(⟨1, 0x1000⟩, 0xF000), (⟨1, 0⟩, 0xF000)] ∧
    (0xF000 : Int) + 0x1000 ≤ 0x10000 := by
  refine ⟨by decide, ?_, ?_⟩
  · exact (c8_monotonic [] 0x10000 [⟨1, 0x1000⟩, ⟨1, 0⟩]
      [(⟨1, 0x1000⟩, 0xF000), (⟨1, 0⟩, 0xF000)]
      (by decide) (by decide) (by decide)).1
  · have h := (c8_monotonic [] 0x10000 [⟨1, 0x1000⟩, ⟨1, 0⟩]
      [(⟨1, 0x1000⟩, 0xF000), (⟨1, 0⟩, 0xF000)]
      (by decide) (by decide) (by decide)).2 (⟨1, 0x1000⟩, 0xF000) (by simp)
    exact h

/-- Counterexample to C8 as stated: a requirement whose load segments end
at `p_vaddr + p_memsz = 0` yields span 0; the packer then leaves the
cursor unchanged and the run succeeds with two *equal* consecutive bases
`0xF000, 0xF000`, so the base sequence is not strictly decreasing. -/
theorem c8_counterexample :
    packLibs [] 0x10000 [⟨1, 0x1000⟩, ⟨1, 0⟩]
      = .ok [(⟨1, 0x1000⟩, 0xF000), (⟨1, 0⟩, 0xF000)] ∧
    ¬ ((0xF000 : Int) < 0xF000) := by
  decide

/-- C9: with existing mapping `[0xE800, 0xF800)`, start `0x10000` and the
single requirement span `0x1000`, alignment `0x100`, the packer places the
library at `0xD800` (tentative `0xF000` collides, the cursor jumps to
`0xE800 - 0x1000 = 0xD800`, which is aligned and collision-free). -/
theorem c9_collision_skip :
    packLibs [(0xE800, 0x1000)] 0x10000 [⟨0x100, 0x1000⟩]
      = .ok [(⟨0x100, 0x1000⟩, 0xD800)] := by decide

/-- One unfolding step of the slot search when the overlap check hits. -/
lemma searchSlot_succ_some {existing : List Region} {sz a : Int} (n : Nat)
    (c : Int) (ha : a ≠ 0) {m : Region}
    (hov : getOverlap (alignDown c a, sz) existing = some m) :
    searchSlot existing sz a (n + 1) c = searchSlot existing sz a n (m.1 - sz) := by
  simp only [searchSlot]
  rw [if_neg ha, hov]

/-- A zero-size existing mapping whose base sits exactly at the end of the
tentative region makes the overlap-skip loop restart to the very same
cursor, so the source loop never terminates, whatever the fuel. -/
theorem searchSlot_zero_size_diverges :
    ∀ fuel : Nat,
      searchSlot [((0x3000 : Int), (0 : Int))] 0x1000 1 fuel 0x2000 = .timeout := by
  intro fuel
  induction fuel with
  | zero => rfl
  | succ n ih =>
    have hov : getOverlap (alignDown 0x2000 1, 0x1000) [((0x3000 : Int), (0 : Int))]
        = some (0x3000, 0) := by decide
    have hstep := searchSlot_succ_some n 0x2000 (by norm_num) hov
    rw [hstep]
    have he : ((0x3000 : Int), (0 : Int)).1 - 0x1000 = 0x2000 := by decide
    rw [he]
    exact ih

/-- C3 (amended): when every existing mapping has positive size, the span
is positive and the alignment is at least 1, each restart strictly
decreases the cursor and the loop finds a slot within
`existing.length + 1` iterations. -/
theorem c3_terminates (existing : List Region) (sz a c : Int)
    (hm : ∀ m ∈ existing, 0 < m.2) (hsz : 0 < sz) (ha : 1 ≤ a) :
    ∃ b, searchSlot existing sz a (existing.length + 1) c = .found b := by
  apply searchSlot_terminates hm hsz (show a ≠ 0 by omega)
  have := List.length_filter_le (fun m => decide (m.1 - sz < c)) existing
  omega

/-- Witness for C3 at spec scenario 3: the search over one positive-size
mapping finds a slot within two iterations. -/
theorem c3_witness :
    ((0 : Int) < 0x1000 ∧ (1 : Int) ≤ 0x100) ∧
    ∃ b, searchSlot [((0xE800 : Int), (0x1000 : Int))] 0x1000 0x100 2 0xF000
      = .found b := by
  refine ⟨by decide, ?_⟩
  exact c3_terminates [(0xE800, 0x1000)] 0x1000 0x100 0xF000
    (by decide) (by decide) (by decide)

/-- Counterexample to C3 as stated: with the zero-size existing mapping
`(0x3000, 0)`, span `0x1000` and cursor `0x2000`, the restart jumps to
`0x3000 - 0x1000 = 0x2000`, i.e. does not decrease the cursor at all, and
the search makes no progress (here: 20 iterations all fail). -/
theorem c3_counterexample :
    getOverlap (0x2000, 0x1000) [((0x3000 : Int), (0 : Int))] = some (0x3000, 0) ∧
    (0x3000 : Int) - 0x1000 = 0x2000 ∧
    searchSlot [((0x3000 : Int), (0 : Int))] 0x1000 1 20 0x2000 = .timeout := by
  decide

/-- C4 (amended): with positive-size existing mappings, positive spans and
alignments at least 1, a start address below the sum of the spans makes
the run fail with the invalid-base exception naming an offending
requirement and its negative base. -/
theorem c4_exhaustion (existing : List Region) :
    ∀ (reqs : List Req) (start : Int),
      (∀ m ∈ existing, 0 < m.2) →
      (∀ r ∈ reqs, 0 < r.span ∧ 1 ≤ r.align) →
      reqs ≠ [] →
      start < (reqs.map Req.span).sum →
      ∃ ps r a, packLibs existing start reqs = .err ps (.badBase r a) ∧
        r ∈ reqs ∧ a < 0 := by
  intro reqs
  induction reqs with
  | nil => intro start _ _ hne _; exact absurd rfl hne
  | cons r rest ih =>
    intro start hm hr _ hlt
    have hspan : 0 < r.span := (hr r (List.mem_cons_self r rest)).1
    have halign : 1 ≤ r.align := (hr r (List.mem_cons_self r rest)).2
    obtain ⟨b, hb⟩ := searchSlot_terminates hm hspan
      (show r.align ≠ 0 by omega) (existing.length + 1) (start - r.span)
      (by
        have := List.length_filter_le
          (fun m => decide (m.1 - r.span < start - r.span)) existing
        omega)
    have hble : b ≤ start - r.span :=
      searchSlot_found_le (fun m hmm => le_of_lt (hm m hmm)) (le_of_lt hspan)
        _ (start - r.span) b hb
    have hsum : (List.map Req.span (r :: rest)).sum
        = r.span + (List.map Req.span rest).sum := by simp
    by_cases hneg : b < 0
    · refine ⟨[], r, b, ?_, List.mem_cons_self r rest, hneg⟩
      simp only [packLibs]
      rw [hb]
      dsimp only
      rw [if_pos hneg]
    · have hb0 : 0 ≤ b := by omega
      have hrt : ∀ x ∈ rest, 0 < x.span ∧ 1 ≤ x.align :=
        fun x hx => hr x (List.mem_cons_of_mem r hx)
      have hrest_ne : rest ≠ [] := by
        rintro rfl
        rw [hsum] at hlt
        simp at hlt
        omega
      have hblt : b < (List.map Req.span rest).sum := by
        rw [hsum] at hlt
        omega
      obtain ⟨ps, r', a', heq, hmem, ha'⟩ := ih b hm hrt hrest_ne hblt
      refine ⟨(r, b) :: ps, r', a', ?_, List.mem_cons_of_mem r hmem, ha'⟩
      simp only [packLibs]
      rw [hb]
      dsimp only
      rw [if_neg hneg, heq]

/-- Witness for C4: start `0x1000` is below the span sum `0x1800`, and the
run indeed aborts with a negative invalid base. -/
theorem c4_witness :
    ((0x1000 : Int) < (List.map Req.span [⟨1, 0x800⟩, (⟨1, 0x1000⟩ : Req)]).sum) ∧
    ∃ ps r a, packLibs [] 0x1000 [⟨1, 0x800⟩, ⟨1, 0x1000⟩]
        = .err ps (.badBase r a) ∧
      r ∈ [(⟨1, 0x800⟩ : Req), ⟨1, 0x1000⟩] ∧ a < 0 := by
  refine ⟨by decide, ?_⟩
  exact c4_exhaustion [] [⟨1, 0x800⟩, ⟨1, 0x1000⟩] 0x1000
    (by decide) (by decide) (by decide) (by decide)

/-- Counterexample to C4 as stated: same run as the witness; the first
library has already been placed (and hence copied and prelinked by the
source) when the second one hits the invalid-base exception, so the
failure does leave a partial placement and a partial relocation behind. -/
theorem c4_counterexample :
    packLibs [] 0x1000 [⟨1, 0x800⟩, ⟨1, 0x1000⟩]
      = .err [(⟨1, 0x800⟩, 0x800)] (.badBase ⟨1, 0x1000⟩ (-0x800)) ∧
    ([((⟨1, 0x800⟩ : Req), (0x800 : Int))] : List (Req × Int)) ≠ [] := by
  decide

/-- C5 (amended): the alignment the packer uses really is the maximum
alignment over the load segments, but the span it uses is the
`address + size` of the *last* load segment in file order, not the
highest one (they agree only when the last load segment ends highest, as
in a well-formed ELF whose load segments are sorted). -/
theorem c5_span_align : ∀ segs : List Seg,
    computeReq segs = (specAlign segs, lastLoadEnd segs) := by
  intro segs
  unfold computeReq specAlign lastLoadEnd
  exact computeReq_foldl segs 0 0

/-- Counterexample to C5 as stated: with the higher-ending load segment
listed first, the computed span is the last segment's end `0x100`, not the
highest end `0x3000`. -/
theorem c5_counterexample :
    computeReq [⟨true, 0x2000, 0x1000, 1⟩, ⟨true, 0, 0x100, 1⟩] = (1, 0x100) ∧
    specSpan [⟨true, 0x2000, 0x1000, 1⟩, ⟨true, 0, 0x100, 1⟩] = 0x3000 ∧
    (0x100 : Int) ≠ 0x3000 := by
  decide

/-- C6 (amended): for a tentative region of positive size over mappings of
positive size, `get_overlap` reports a conflict exactly when some
mapping's half-open interval intersects the tentative half-open interval;
zero-size regions can additionally be reported at mere boundary contact. -/
theorem c6_overlap_iff (st sz : Int) (others : List Region)
    (hsz : 0 < sz) (hm : ∀ m ∈ others, 0 < m.2) :
    (getOverlap (st, sz) others).isSome = true ↔
      ∃ m ∈ others, st < m.1 + m.2 ∧ m.1 < st + sz := by
  constructor
  · intro h
    obtain ⟨m, hfind⟩ := Option.isSome_iff_exists.mp h
    obtain ⟨hmem, hcond⟩ := getOverlap_eq_some hfind
    exact ⟨m, hmem, (overlapCond_iff hsz (hm m hmem)).mp hcond⟩
  · rintro ⟨m, hmem, hint⟩
    cases hov : getOverlap (st, sz) others with
    | some m0 => rfl
    | none =>
      exfalso
      have hfalse := getOverlap_eq_none hov m hmem
      have htrue := overlapCond_of_inter hint.1 hint.2
      simp [htrue] at hfalse

/-- Witness for C6 at spec scenario 2: the boundary-touching tentative
region `[0xF000, 0x10000)` against the mapping `[0xE000, 0xF000)` (both of
positive size) is not a conflict, matching the intersection predicate. -/
theorem c6_witness :
    (0 : Int) < 0x1000 ∧
    ((getOverlap (0xF000, 0x1000) [((0xE000 : Int), (0x1000 : Int))]).isSome = true ↔
      ∃ m ∈ [((0xE000 : Int), (0x1000 : Int))],
        (0xF000 : Int) < m.1 + m.2 ∧ m.1 < 0xF000 + 0x1000) := by
  refine ⟨by decide, ?_⟩
  exact c6_overlap_iff 0xF000 0x1000 [(0xE000, 0x1000)] (by decide) (by decide)

/-- Counterexample to C6 as stated: the zero-size tentative region `(5, 0)`
against the mapping `(5, 3)` is reported as a conflict although the
half-open intervals `[5, 5)` and `[5, 8)` do not intersect. -/
theorem c6_counterexample :
    getOverlap (5, 0) [((5 : Int), (3 : Int))] = some (5, 3) ∧
    ¬ ((5 : Int) < 5 + 3 ∧ (5 : Int) < 5 + 0) := by
  decide

/-- C7 (amended): a requirement of alignment 1 indeed acts as "no
constraint", but a requirement of alignment 0 is not treated as 1: the
run fails immediately with Python's `ZeroDivisionError` from
`baseaddr % align`, placing nothing. -/
theorem c7_zero_align_fails (existing : List Region) (start sp : Int)
    (rest : List Req) :
    packLibs existing start (⟨0, sp⟩ :: rest) = .err [] .zeroDiv := by
  simp only [packLibs]
  have h : searchSlot existing sp (0 : Int) (existing.length + 1) (start - sp)
      = .zeroDiv := by
    simp [searchSlot]
  rw [h]

/-- Counterexample to C7 as stated: with alignment 0 the pack fails with
the division-by-zero error, while the identical requirement with
alignment 1 succeeds at `0xF000`; the two runs are not equivalent. -/
theorem c7_counterexample :
    packLibs [] 0x10000 [⟨0, 0x1000⟩] = .err [] .zeroDiv ∧
    packLibs [] 0x10000 [⟨1, 0x1000⟩] = .ok [(⟨1, 0x1000⟩, 0xF000)] := by
  decide

/-- C10: the library collection handed to the packer is duplicate-free
(each resolved path and the interpreter appear exactly once), and it
contains the interpreter and every resolved dependency. -/
theorem c10_dedup (deps : List String) (interp : String) :
    (collectLibs deps interp).Nodup ∧
    interp ∈ collectLibs deps interp ∧
    ∀ d ∈ deps, d ∈ collectLibs deps interp := by
  unfold collectLibs
  refine ⟨?_, ?_, ?_⟩
  · exact insertNew_nodup interp (foldl_insertNew_nodup deps [] List.nodup_nil)
  · exact insertNew_mem_self _ interp
  · intro d hd
    exact insertNew_mem_mono interp (foldl_insertNew_mem deps [] d (Or.inr hd))
